import Mathlib

/-!
Verification of the DNS server's record resolution engine
(`src/dns_server/config.py` and `src/dns_server/records.py`).

The embedding is shallow: the YAML-decoded configuration document is the
inductive `YVal`; Python exception classes relevant to `Config.load` and
`Config.maybe_reload` are the inductive `Exc`; the mutable attributes of the
`Config` object are the structure `ConfigState`, and `load` threads that
state explicitly, returning the (possibly partially mutated) state together
with the escaping exception, if any.  The external libraries (`yaml`,
`ipaddress`, `dnslib`) are out-of-scope collaborators; their validation
behaviour is modelled by executable predicates noted in the doc comments.
-/

namespace DnsServer

/-- A parsed DNS record (`records.Record`): fully-qualified name, type name,
value payload and TTL. -/
structure Record where
  name : String
  rtype : String
  value : String
  ttl : Int
deriving DecidableEq

/-- A protocol-ready resource record, the observable content of the
`dnslib.RR` objects built by `Config._to_rrs`: owner name (rendered label),
numeric type, rendered rdata (for CNAME/NS/PTR the rendered target label)
and TTL. -/
structure RR where
  rname : String
  rtype : Int
  rdata : String
  ttl : Int
deriving DecidableEq

/-- A YAML-decoded value as produced by `yaml.safe_load`: the generic
mapping/list/scalar structure the configuration source provides.  Mapping
keys are modelled as strings (non-string keys never compare equal to the
string keys the code looks up, so they behave like absent keys). -/
inductive YVal where
  | nil
  | bool (b : Bool)
  | int (n : Int)
  | str (s : String)
  | list (xs : List YVal)
  | map (kvs : List (String × YVal))

/-- The Python exception classes that can flow through `Config.load` and
`Config.maybe_reload`.  `fileNotFound` is `FileNotFoundError` (a subclass of
`OSError`); `osError` stands for any other `OSError`. -/
inductive Exc where
  | valueError (msg : String)
  | typeError (msg : String)
  | keyError (key : String)
  | attributeError
  | fileNotFound
  | osError
deriving DecidableEq

/-- Outcome of reading and YAML-parsing the configuration file:
`osError` models a failing `open`/read, `yamlError` a `yaml.YAMLError`
from `yaml.safe_load`, and `doc v` a successfully decoded document. -/
inductive ReadResult where
  | osError
  | yamlError
  | doc (v : YVal)

/-- The configuration source as seen by one `load` call: absent
(`os.stat` raises `FileNotFoundError`) or present with a modification
timestamp and a read outcome.  The float mtime is modelled as an integer;
only its ordering is ever consulted. -/
inductive Source where
  | absent
  | present (mtime : Int) (r : ReadResult)

/-- The mutable attributes of a `Config` object: `_mtime`, `default_ttl`,
`records` and `index`. -/
structure ConfigState where
  mtime : Int
  default_ttl : Int
  records : List Record
  index : List ((String × String) × List Record)
deriving DecidableEq

/-- Python truthiness of a YAML value, as used by `yaml.safe_load(f) or {}`. -/
def truthy : YVal → Bool
  | .nil => false
  | .bool b => b
  | .int n => n != 0
  | .str s => s != ""
  | .list xs => !xs.isEmpty
  | .map kvs => !kvs.isEmpty

/-- Python `str()` of a YAML value.  Containers are rendered to a
placeholder repr; the code only ever asks whether such a rendering ends in
`"."` or equals a supported type name, and a Python list/dict repr (ending
in a bracket or brace) satisfies neither, exactly like the placeholder. -/
def pyStr : YVal → String
  | .nil => "None"
  | .bool b => if b then "True" else "False"
  | .int n => toString n
  | .str s => s
  | .list _ => "[...]"
  | .map _ => "\x7b...\x7d"

/-- Python `type(x).__name__` for YAML values, used in error messages. -/
def typeName : YVal → String
  | .nil => "NoneType"
  | .bool _ => "bool"
  | .int _ => "int"
  | .str _ => "str"
  | .list _ => "list"
  | .map _ => "dict"

/-- Python `str.lower()` (ASCII case mapping). -/
def lowerStr (s : String) : String := ⟨s.data.map Char.toLower⟩

/-- Python `str.upper()` (ASCII case mapping). -/
def upperStr (s : String) : String := ⟨s.data.map Char.toUpper⟩

/-- Python `str.strip()`: drop leading and trailing whitespace. -/
def stripStr (s : String) : String :=
  ⟨((s.data.dropWhile Char.isWhitespace).reverse.dropWhile Char.isWhitespace).reverse⟩

/-- Python `str.endswith(".")`. -/
def endsWithDot (s : String) : Bool :=
  match s.data.getLast? with
  | some c => c == '.'
  | none => false

/-- Split a character list on a single-character separator (the splitting
done by the modelled library validators). -/
def splitOnChar (c : Char) : List Char → List (List Char)
  | [] => [[]]
  | x :: xs =>
    match splitOnChar c xs with
    | [] => [[]]
    | g :: gs => if x == c then [] :: g :: gs else (x :: g) :: gs

/-- Split a character list on the two-character separator `::`, greedily
left to right. -/
def splitDColon : List Char → List (List Char)
  | [] => [[]]
  | ':' :: ':' :: xs => [] :: splitDColon xs
  | x :: xs =>
    match splitDColon xs with
    | [] => [[]]
    | g :: gs => (x :: g) :: gs

/-- Digits-to-number helper for the model of Python `int(str)`. -/
def digitsToNat (cs : List Char) : Nat :=
  cs.foldl (fun a c => a * 10 + (c.toNat - 48)) 0

/-- Model of Python `int()` applied to a string: optional surrounding
whitespace, optional sign, decimal digits. -/
def parseIntStr (s : String) : Option Int :=
  let cs := (stripStr s).data
  match cs with
  | [] => none
  | c :: rest =>
    if c == '-' then
      if !rest.isEmpty && rest.all Char.isDigit then
        some (-(digitsToNat rest : Int))
      else none
    else if c == '+' then
      if !rest.isEmpty && rest.all Char.isDigit then
        some (digitsToNat rest : Int)
      else none
    else if cs.all Char.isDigit then some (digitsToNat cs : Int)
    else none

/-- Python `int()` on a YAML value: ints pass through, bools coerce,
numeric strings parse (`ValueError` otherwise), and `None`/lists/dicts
raise `TypeError`. -/
def pyInt : YVal → Except Exc Int
  | .int n => .ok n
  | .bool b => .ok (if b then 1 else 0)
  | .str s =>
    match parseIntStr s with
    | some n => .ok n
    | none => .error (.valueError ("invalid literal for int: " ++ s))
  | .nil => .error (.typeError "int() argument: NoneType")
  | .list _ => .error (.typeError "int() argument: list")
  | .map _ => .error (.typeError "int() argument: dict")

/-- Python `dict.get(k, default)`. -/
def dictGet (kvs : List (String × YVal)) (k : String) (d : YVal) : YVal :=
  match kvs.find? (fun kv => kv.1 == k) with
  | some kv => kv.2
  | none => d

/-- Python `dict[k]`: raises `KeyError` when the key is absent. -/
def dictGetItem (kvs : List (String × YVal)) (k : String) : Except Exc YVal :=
  match kvs.find? (fun kv => kv.1 == k) with
  | some kv => .ok kv.2
  | none => .error (.keyError k)

/-- Python `data.get(k, default)` on an arbitrary value: only mappings have
a `get` attribute; any other (truthy) value raises `AttributeError`. -/
def pyGet (v : YVal) (k : String) (d : YVal) : Except Exc YVal :=
  match v with
  | .map kvs => .ok (dictGet kvs k d)
  | _ => .error .attributeError

/-- `SUPPORTED_ORDER`: the fixed canonical type order for `QTYPE.ANY`
responses. -/
def SUPPORTED_ORDER : List String := ["A", "AAAA", "CNAME", "TXT", "NS", "PTR"]

/-- `SUPPORTED_QTYPES`: type name to numeric `dnslib.QTYPE` code. -/
def SUPPORTED_QTYPES : List (String × Int) :=
  [("A", 1), ("AAAA", 28), ("CNAME", 5), ("TXT", 16), ("NS", 2), ("PTR", 12)]

/-- Membership test `rtype in SUPPORTED_QTYPES`. -/
def supportedName (t : String) : Bool :=
  (SUPPORTED_QTYPES.find? (fun kv => kv.1 == t)).isSome

/-- `QTYPE.get(qtype)`: the name of a numeric type code.  For codes the
model does not name it returns the decimal string (as dnslib's `Bimap.get`
falls back to `str(k)`); the result is only ever tested for membership in
`SUPPORTED_QTYPES`, for which any unsupported rendering is equivalent. -/
def qtypeGet (q : Int) : String :=
  match SUPPORTED_QTYPES.find? (fun kv => kv.2 == q) with
  | some kv => kv.1
  | none => if q == 255 then "ANY" else toString q

/-- The index key of a record: `(rec.name.lower(), rec.rtype)`. -/
def indexKey (r : Record) : String × String := (lowerStr r.name, r.rtype)

/-- One step of `index.setdefault(key, []).append(rec)`: append the record
to its bucket, creating the bucket at the end when absent. -/
def addToBucket :
    List ((String × String) × List Record) → Record →
    List ((String × String) × List Record)
  | [], r => [(indexKey r, [r])]
  | (k, b) :: rest, r =>
    if k == indexKey r then (k, b ++ [r]) :: rest
    else (k, b) :: addToBucket rest r

/-- The derived index of `Config.load`: fold the records through
`setdefault`/`append`. -/
def buildIndex (recs : List Record) : List ((String × String) × List Record) :=
  recs.foldl addToBucket []

/-- `self.index.get(key, [])`. -/
def indexGet (idx : List ((String × String) × List Record))
    (key : String × String) : List Record :=
  match idx.find? (fun kv => kv.1 == key) with
  | some kv => kv.2
  | none => []

/-- Message of `ValueError(f"record #\x7bi\x7d: ...")`. -/
def recordMsg (i : Nat) (detail : String) : String :=
  "record #" ++ toString i ++ ": " ++ detail

/-- Message of `ValueError(f"malformed record #\x7bi\x7d: ...")`. -/
def malformedMsg (i : Nat) (detail : String) : String :=
  "malformed record #" ++ toString i ++ ": " ++ detail

/-- Rendering of a caught exception inside an f-string (`f"...: \x7bexc\x7d"`). -/
def excText : Exc → String
  | .valueError m => m
  | .typeError m => m
  | .keyError k => k
  | .attributeError => "attribute error"
  | .fileNotFound => "file not found"
  | .osError => "os error"

/-- The `ConfigError` raised while parsing one record cites that record's
1-based ordinal position: it is a `ValueError` whose message embeds
`#i` through one of the two f-string shapes used in `Config.load`. -/
def citesPos (e : Exc) (i : Nat) : Prop :=
  (∃ d, e = .valueError (recordMsg i d)) ∨ (∃ d, e = .valueError (malformedMsg i d))

/-- The `try` body of the record loop: extract `name`, `type`, `value` and
`ttl` from one entry, raising `KeyError`/`TypeError`/`ValueError` exactly
where the source does. -/
def parseRecordFields (dttl : Int) (kvs : List (String × YVal)) :
    Except Exc (String × String × String × Int) :=
  match dictGetItem kvs "name" with
  | .error e => .error e
  | .ok nv =>
    match dictGetItem kvs "type" with
    | .error e => .error e
    | .ok tv =>
      match dictGetItem kvs "value" with
      | .error e => .error e
      | .ok vv =>
        match pyInt (dictGet kvs "ttl" (.int dttl)) with
        | .error e => .error e
        | .ok tt =>
          .ok (stripStr (pyStr nv), stripStr (upperStr (pyStr tv)), stripStr (pyStr vv), tt)

/-- One iteration of the record loop of `Config.load` for the entry at
1-based position `i`: shape check, field extraction with its exception
handler, trailing-dot check and supported-type check. -/
def parseRecord (dttl : Int) (i : Nat) (item : YVal) : Except Exc Record :=
  match item with
  | .map kvs =>
    match parseRecordFields dttl kvs with
    | .error e => .error (.valueError (malformedMsg i (excText e)))
    | .ok (name, rtype, value, ttl) =>
      if !(endsWithDot name) then
        .error (.valueError (recordMsg i ("name must end with . (got " ++ name ++ ")")))
      else if !(supportedName rtype) then
        .error (.valueError (recordMsg i ("unsupported type " ++ rtype)))
      else .ok ⟨name, rtype, value, ttl⟩
  | other =>
    .error (.valueError (recordMsg i ("mapping required, got " ++ typeName other)))

/-- The record loop of `Config.load` over the raw `records` list, numbering
entries from `i`: stops at the first failing entry. -/
def parseRecords (dttl : Int) (i : Nat) : List YVal → Except Exc (List Record)
  | [] => .ok []
  | item :: rest =>
    match parseRecord dttl i item with
    | .error e => .error e
    | .ok r =>
      match parseRecords dttl (i + 1) rest with
      | .error e => .error e
      | .ok rs => .ok (r :: rs)

/-- `Config.load(force)`: stat, mtime gate, read+YAML-parse, `default_ttl`
assignment, records parsing, and final publication of `records`, `index`
and `_mtime`.  Returns the final attribute state together with the escaping
exception, if any; the state reflects exactly the assignments executed
before the exception was raised. -/
def load (st : ConfigState) (src : Source) (force : Bool) :
    ConfigState × Option Exc :=
  match src with
  | .absent => if force then (st, some .fileNotFound) else (st, none)
  | .present m r =>
    if force = false ∧ m ≤ st.mtime then (st, none)
    else
      match r with
      | .osError => (st, some .osError)
      | .yamlError => (st, some (.valueError "YAML parsing error"))
      | .doc v =>
        let data := if truthy v then v else .map []
        match pyGet data "default_ttl" (.int 300) with
        | .error e => (st, some e)
        | .ok dv =>
          match pyInt dv with
          | .error e => (st, some (.valueError ("invalid default_ttl: " ++ excText e)))
          | .ok dttl =>
            let st1 := { st with default_ttl := dttl }
            match pyGet data "records" (.list []) with
            | .error e => (st1, some e)
            | .ok rawv =>
              match rawv with
              | .list raw =>
                match parseRecords dttl 1 raw with
                | .error e => (st1, some e)
                | .ok recs =>
                  ({ st1 with
                      records := recs, index := buildIndex recs, mtime := m }, none)
              | _ => (st1, some (.valueError "records must be a list"))

/-- Whether `maybe_reload`'s handler `except (ValueError, yaml.YAMLError,
OSError)` catches an exception (`FileNotFoundError` is an `OSError`). -/
def excCaught : Exc → Bool
  | .valueError _ => true
  | .fileNotFound => true
  | .osError => true
  | .typeError _ => false
  | .keyError _ => false
  | .attributeError => false

/-- `Config.maybe_reload()`: call `load(force=False)` and swallow the
caught exception classes; anything else escapes to the caller. -/
def maybe_reload (st : ConfigState) (src : Source) : ConfigState × Option Exc :=
  match load st src false with
  | (st2, none) => (st2, none)
  | (st2, some e) => if excCaught e then (st2, none) else (st2, some e)

/-- One dotted-quad octet accepted by `ipaddress.IPv4Address`: one to three
decimal digits, no leading zero, value at most 255. -/
def ipv4OctetOk (cs : List Char) : Bool :=
  !cs.isEmpty && cs.length ≤ 3 && cs.all Char.isDigit &&
    (cs.length == 1 || cs.head? != some '0') && digitsToNat cs ≤ 255

/-- Model of the external `ipaddress.IPv4Address` literal check (the
collaborator library declared out of scope by the spec): exactly four
dot-separated valid octets. -/
def isIPv4 (s : String) : Bool :=
  let parts := splitOnChar '.' s.data
  parts.length == 4 && parts.all ipv4OctetOk

/-- One hexadecimal group of an IPv6 literal: one to four hex digits. -/
def hexGroupOk (cs : List Char) : Bool :=
  !cs.isEmpty && cs.length ≤ 4 &&
    cs.all (fun c => c.isDigit || ('a' ≤ c && c ≤ 'f') || ('A' ≤ c && c ≤ 'F'))

/-- Model of the external `ipaddress.IPv6Address` literal check: eight
colon-separated hex groups, or at most seven around a single `::`
compression (the embedded-IPv4 tail form is not modelled). -/
def isIPv6 (s : String) : Bool :=
  match splitDColon s.data with
  | [one] =>
    let gs := splitOnChar ':' one
    gs.length == 8 && gs.all hexGroupOk
  | [l, r] =>
    let ls := if l.isEmpty then [] else splitOnChar ':' l
    let rs := if r.isEmpty then [] else splitOnChar ':' r
    ls.length + rs.length ≤ 7 && ls.all hexGroupOk && rs.all hexGroupOk
  | _ => false

/-- Model of the external `dnslib` domain-name validation performed when a
CNAME/NS/PTR rdata label is constructed from a record value (the spec:
such values "must parse as valid domain names"): after removing one
trailing root dot, every label is nonempty and at most 63 characters. -/
def validDomain (s : String) : Bool :=
  if s == "" || s == "." then true
  else
    let core := if endsWithDot s then s.data.dropLast else s.data
    (splitOnChar '.' core).all (fun l => !l.isEmpty && l.length ≤ 63)

/-- `str(DNSLabel(s))`: the rendered label always carries a trailing root
dot. -/
def dnsLabelStr (s : String) : String :=
  if s == "" || s == "." then "."
  else if endsWithDot s then s else s ++ "."

/-- The per-type `dnslib.RR` construction of `Config._to_rrs` for one
record: the type dispatch chain, with the type-specific value validation
that the source performs inside its `try` block.  `none` models the
record being skipped with a warning. -/
def buildRR (rtype : String) (rec : Record) : Option RR :=
  let label := dnsLabelStr rec.name
  if rtype == "A" then
    if isIPv4 rec.value then some ⟨label, 1, rec.value, rec.ttl⟩ else none
  else if rtype == "AAAA" then
    if isIPv6 rec.value then some ⟨label, 28, rec.value, rec.ttl⟩ else none
  else if rtype == "CNAME" then
    if validDomain rec.value then some ⟨label, 5, dnsLabelStr rec.value, rec.ttl⟩
    else none
  else if rtype == "TXT" then some ⟨label, 16, rec.value, rec.ttl⟩
  else if rtype == "NS" then
    if validDomain rec.value then some ⟨label, 2, dnsLabelStr rec.value, rec.ttl⟩
    else none
  else if rtype == "PTR" then
    if validDomain rec.value then some ⟨label, 12, dnsLabelStr rec.value, rec.ttl⟩
    else none
  else none

/-- `Config._to_rrs(name_lc, rtype)`: walk the index bucket in order,
keeping the records whose values pass construction-time validation and
skipping the rest. -/
def toRRs (cfg : ConfigState) (nameLc rtype : String) : List RR :=
  (indexGet cfg.index (nameLc, rtype)).filterMap (buildRR rtype)

/-- `Config.lookup(qname, qtype)`: the resolution algorithm — ANY
expansion in canonical order with first-CNAME chasing, or direct typed
lookup with CNAME fallback. -/
def lookup (cfg : ConfigState) (qname : String) (qtype : Int) :
    List RR × List RR :=
  let name := lowerStr qname
  if qtype == 255 then
    let answers := SUPPORTED_ORDER.flatMap (fun t => toRRs cfg name t)
    let targets := (answers.filter (fun rr => rr.rtype == 5)).map (fun rr => rr.rdata)
    match targets with
    | [] => (answers, [])
    | t :: _ =>
      (answers, toRRs cfg (lowerStr t) "A" ++ toRRs cfg (lowerStr t) "AAAA")
  else
    let qn := qtypeGet qtype
    let answers := if supportedName qn then toRRs cfg name qn else []
    if answers.isEmpty then
      match toRRs cfg name "CNAME" with
      | [] => ([], [])
      | c :: cs =>
        (c :: cs,
          toRRs cfg (lowerStr c.rdata) "A" ++ toRRs cfg (lowerStr c.rdata) "AAAA")
    else (answers, [])

/-! ### Structural lemmas about the index -/

theorem indexGet_nil (key : String × String) : indexGet [] key = [] := rfl

theorem indexGet_addToBucket (idx : List ((String × String) × List Record))
    (r : Record) (key : String × String) :
    indexGet (addToBucket idx r) key =
      indexGet idx key ++ (if indexKey r == key then [r] else []) := by
  induction idx with
  | nil =>
    by_cases h : indexKey r = key
    · subst h
      simp [addToBucket, indexGet, List.find?]
    · have hb : (indexKey r == key) = false := by simpa using h
      simp [addToBucket, indexGet, List.find?, hb, h]
  | cons kb rest ih =>
    obtain ⟨k, b⟩ := kb
    by_cases hk : k = indexKey r
    · subst hk
      by_cases hkey : indexKey r = key
      · subst hkey
        simp [addToBucket, indexGet, List.find?]
      · have hb : (indexKey r == key) = false := by simpa using hkey
        simp [addToBucket, indexGet, List.find?, hb, hkey]
    · by_cases hkey : k = key
      · subst hkey
        have h2 : ¬ indexKey r = k := fun h => hk h.symm
        simp [addToBucket, indexGet, List.find?, hk, h2]
      · have hb : (k == key) = false := by simpa using hkey
        have hk2 : (k == indexKey r) = false := by simpa using hk
        have g1 : indexGet (addToBucket ((k, b) :: rest) r) key
            = indexGet (addToBucket rest r) key := by
          simp [addToBucket, hk2, indexGet, List.find?, hb]
        have g2 : indexGet ((k, b) :: rest) key = indexGet rest key := by
          simp [indexGet, List.find?, hb]
        rw [g1, g2, ih]

theorem indexGet_foldl (recs : List Record)
    (idx : List ((String × String) × List Record)) (key : String × String) :
    indexGet (recs.foldl addToBucket idx) key =
      indexGet idx key ++ recs.filter (fun r => indexKey r == key) := by
  induction recs generalizing idx with
  | nil => simp
  | cons r rest ih =>
    rw [List.foldl_cons, ih, indexGet_addToBucket]
    by_cases h : indexKey r = key
    · simp [List.filter_cons, h, List.append_assoc]
    · have hb : (indexKey r == key) = false := by simpa using h
      simp [List.filter_cons, hb]

/-- The derived index is a pure view of the record list: the bucket of a
key holds exactly the records with that key, in original file order. -/
theorem indexGet_buildIndex (recs : List Record) (key : String × String) :
    indexGet (buildIndex recs) key = recs.filter (fun r => indexKey r == key) := by
  rw [buildIndex, indexGet_foldl]
  rfl

/-- For a well-formed snapshot, `_to_rrs` returns the valid-value subset of
the matching records, in file order. -/
theorem toRRs_eq_filterMap (cfg : ConfigState) (nameLc rtype : String)
    (hwf : cfg.index = buildIndex cfg.records) :
    toRRs cfg nameLc rtype =
      (cfg.records.filter (fun r => indexKey r == (nameLc, rtype))).filterMap
        (buildRR rtype) := by
  rw [toRRs, hwf, indexGet_buildIndex]

/-! ### Structural lemmas about `load` -/

/-- Case shape of a `load` result: it either succeeded (no exception), or
the resulting state kept the caller's `records`, `index` and `_mtime`. -/
theorem load_result_shape (st : ConfigState) (src : Source) (force : Bool) :
    (load st src force).2 = none ∨
      ((load st src force).1.records = st.records ∧
        (load st src force).1.index = st.index ∧
        (load st src force).1.mtime = st.mtime) := by
  cases src with
  | absent => cases force <;> simp [load]
  | present m r =>
    cases r with
    | osError =>
      simp only [load]
      split
      · left
        rfl
      · exact .inr ⟨rfl, rfl, rfl⟩
    | yamlError =>
      simp only [load]
      split
      · left
        rfl
      · exact .inr ⟨rfl, rfl, rfl⟩
    | doc v =>
      simp only [load]
      split
      · left
        rfl
      · split
        · exact .inr ⟨rfl, rfl, rfl⟩
        · split
          · exact .inr ⟨rfl, rfl, rfl⟩
          · split
            · exact .inr ⟨rfl, rfl, rfl⟩
            · split
              · split
                · exact .inr ⟨rfl, rfl, rfl⟩
                · left
                  rfl
              · exact .inr ⟨rfl, rfl, rfl⟩

/-- Any failing `load` leaves `records`, `index` and `_mtime` untouched:
they are only assigned after the whole candidate has validated. -/
theorem load_error_preserves (st : ConfigState) (src : Source) (force : Bool)
    (st2 : ConfigState) (e : Exc) (h : load st src force = (st2, some e)) :
    st2.records = st.records ∧ st2.index = st.index ∧ st2.mtime = st.mtime := by
  rcases load_result_shape st src force with h0 | h0
  · rw [h] at h0
    exact absurd h0 (by simp)
  · rw [h] at h0
    exact h0

/-! ### Lemmas about record parsing -/

/-- The validity categories named by the spec for one raw records entry:
it is a mapping, has `name`/`type`/`value` keys, the stripped name ends
with the root dot, and the normalized type is supported.  (`ttl` validity
is deliberately not part of this shape check.) -/
def c2Valid (item : YVal) : Bool :=
  match item with
  | .map kvs =>
    match kvs.find? (fun kv => kv.1 == "name"), kvs.find? (fun kv => kv.1 == "type"),
        kvs.find? (fun kv => kv.1 == "value") with
    | some nv, some tv, some _ =>
      endsWithDot (stripStr (pyStr nv.2)) &&
        supportedName (stripStr (upperStr (pyStr tv.2)))
    | _, _, _ => false
  | _ => false

theorem dictGetItem_ok (kvs : List (String × YVal)) (k : String) (v : YVal)
    (h : dictGetItem kvs k = .ok v) :
    ∃ kv, kvs.find? (fun p => p.1 == k) = some kv ∧ kv.2 = v := by
  unfold dictGetItem at h
  split at h
  · rename_i kv heq
    injection h with h2
    exact ⟨kv, heq, h2⟩
  · exact Except.noConfusion h

theorem parseRecordFields_ok (dttl : Int) (kvs : List (String × YVal))
    (q : String × String × String × Int) (h : parseRecordFields dttl kvs = .ok q) :
    ∃ nv tv vv,
      kvs.find? (fun p => p.1 == "name") = some nv ∧
      kvs.find? (fun p => p.1 == "type") = some tv ∧
      kvs.find? (fun p => p.1 == "value") = some vv ∧
      q.1 = stripStr (pyStr nv.2) ∧ q.2.1 = stripStr (upperStr (pyStr tv.2)) := by
  unfold parseRecordFields at h
  split at h
  · exact Except.noConfusion h
  · rename_i nv hnv
    split at h
    · exact Except.noConfusion h
    · rename_i tv htv
      split at h
      · exact Except.noConfusion h
      · rename_i vv hvv
        split at h
        · exact Except.noConfusion h
        · injection h with h2
          obtain ⟨kn, hkn, hkn2⟩ := dictGetItem_ok _ _ _ hnv
          obtain ⟨kt, hkt, hkt2⟩ := dictGetItem_ok _ _ _ htv
          obtain ⟨kv, hkv, hkv2⟩ := dictGetItem_ok _ _ _ hvv
          subst h2
          exact ⟨kn, kt, kv, hkn, hkt, hkv, by rw [hkn2], by rw [hkt2]⟩

/-- Every error raised inside the record loop for entry `i` cites the
entry's ordinal position. -/
theorem parseRecord_error_cites (dttl : Int) (i : Nat) (item : YVal) (e : Exc)
    (h : parseRecord dttl i item = .error e) : citesPos e i := by
  cases item with
  | map kvs =>
    simp only [parseRecord] at h
    split at h
    · injection h with h2
      exact Or.inr ⟨_, h2.symm⟩
    · split at h
      · injection h with h2
        exact Or.inl ⟨_, h2.symm⟩
      · split at h
        · injection h with h2
          exact Or.inl ⟨_, h2.symm⟩
        · exact Except.noConfusion h
  | nil =>
    simp only [parseRecord] at h
    injection h with h2
    exact Or.inl ⟨_, h2.symm⟩
  | bool b =>
    simp only [parseRecord] at h
    injection h with h2
    exact Or.inl ⟨_, h2.symm⟩
  | int n =>
    simp only [parseRecord] at h
    injection h with h2
    exact Or.inl ⟨_, h2.symm⟩
  | str s =>
    simp only [parseRecord] at h
    injection h with h2
    exact Or.inl ⟨_, h2.symm⟩
  | list xs =>
    simp only [parseRecord] at h
    injection h with h2
    exact Or.inl ⟨_, h2.symm⟩

/-- A successfully parsed entry satisfies the shape check: it is a mapping
with `name`/`type`/`value` present, a dot-terminated name and a supported
type. -/
theorem c2Valid_of_parseRecord_ok (dttl : Int) (i : Nat) (item : YVal)
    (rec : Record) (h : parseRecord dttl i item = .ok rec) : c2Valid item = true := by
  cases item with
  | map kvs =>
    cases hq : parseRecordFields dttl kvs with
    | error e1 =>
      simp only [parseRecord, hq] at h
      exact Except.noConfusion h
    | ok q =>
      obtain ⟨name, rtype, value, ttl⟩ := q
      simp only [parseRecord, hq] at h
      cases hdot : endsWithDot name with
      | false => simp [hdot] at h
      | true =>
        cases htype : supportedName rtype with
        | false => simp [hdot, htype] at h
        | true =>
          obtain ⟨nv, tv, vv, hn, ht, hv, hq1, hq2⟩ := parseRecordFields_ok _ _ _ hq
          simp only at hq1 hq2
          simp [c2Valid, hn, ht, hv, ← hq1, ← hq2, hdot, htype]
  | nil => exact Except.noConfusion h
  | bool b => exact Except.noConfusion h
  | int n => exact Except.noConfusion h
  | str s => exact Except.noConfusion h
  | list xs => exact Except.noConfusion h

/-- If the entry at 0-based offset `i` cannot parse and every earlier entry
parses, the record loop numbered from `k` fails with an error citing
ordinal `k + i`. -/
theorem parseRecords_error_at (dttl : Int) (raw : List YVal) :
    ∀ (k i : Nat) (h : i < raw.length),
      (∀ rec, parseRecord dttl (k + i) (raw.get ⟨i, h⟩) ≠ .ok rec) →
      (∀ j (hj : j < i), ∃ rec,
        parseRecord dttl (k + j) (raw.get ⟨j, Nat.lt_trans hj h⟩) = .ok rec) →
      ∃ e, parseRecords dttl k raw = .error e ∧ citesPos e (k + i) := by
  induction raw with
  | nil =>
    intro k i h
    exact absurd h (by simp)
  | cons x xs ih =>
    intro k i h hbad hpre
    cases i with
    | zero =>
      cases hx : parseRecord dttl k x with
      | ok r =>
        exact absurd (show parseRecord dttl (k + 0) ((x :: xs).get ⟨0, h⟩) = .ok r by
          simpa using hx) (hbad r)
      | error e =>
        refine ⟨e, ?_, ?_⟩
        · simp only [parseRecords, hx]
        · simpa using parseRecord_error_cites dttl k x e hx
    | succ j =>
      obtain ⟨r0, hr0⟩ := hpre 0 (Nat.succ_pos j)
      have hr0x : parseRecord dttl k x = .ok r0 := by simpa using hr0
      have hj : j < xs.length := Nat.lt_of_succ_lt_succ h
      have hbad2 : ∀ rec, parseRecord dttl (k + 1 + j) (xs.get ⟨j, hj⟩) ≠ .ok rec := by
        intro rec hc
        refine hbad rec ?_
        have hidx : ((x :: xs).get ⟨j + 1, h⟩) = xs.get ⟨j, hj⟩ := rfl
        rw [hidx]
        have harith : k + (j + 1) = k + 1 + j := by omega
        rw [harith]
        exact hc
      have hpre2 : ∀ j2 (hj2 : j2 < j), ∃ rec,
          parseRecord dttl (k + 1 + j2) (xs.get ⟨j2, Nat.lt_trans hj2 hj⟩) = .ok rec := by
        intro j2 hj2
        obtain ⟨rec, hrec⟩ := hpre (j2 + 1) (Nat.succ_lt_succ hj2)
        refine ⟨rec, ?_⟩
        have hidx : ((x :: xs).get ⟨j2 + 1, Nat.lt_trans (Nat.succ_lt_succ hj2) h⟩)
            = xs.get ⟨j2, Nat.lt_trans hj2 hj⟩ := rfl
        have harith : k + (j2 + 1) = k + 1 + j2 := by omega
        rw [← harith]
        rw [← hidx]
        exact hrec
      obtain ⟨e, he, hc⟩ := ih (k + 1) j hj hbad2 hpre2
      refine ⟨e, ?_, ?_⟩
      · simp only [parseRecords, hr0x, he]
      · have harith : k + 1 + j = k + (j + 1) := by omega
        rwa [harith] at hc

/-- An entry that is a mapping whose `ttl` value `int()` rejects can never
parse successfully (the loop fails on it before the record is built). -/
theorem parseRecord_not_ok_of_bad_ttl (dttl : Int) (i : Nat)
    (kvs : List (String × YVal)) (tkv : String × YVal)
    (httl : kvs.find? (fun p => p.1 == "ttl") = some tkv)
    (e0 : Exc) (hbad : pyInt tkv.2 = .error e0) :
    ∀ rec, parseRecord dttl i (.map kvs) ≠ .ok rec := by
  intro rec h
  cases hq : parseRecordFields dttl kvs with
  | error e1 =>
    simp only [parseRecord, hq] at h
    exact Except.noConfusion h
  | ok q =>
    have hdg : dictGet kvs "ttl" (.int dttl) = tkv.2 := by simp [dictGet, httl]
    unfold parseRecordFields at hq
    split at hq
    · exact Except.noConfusion hq
    · split at hq
      · exact Except.noConfusion hq
      · split at hq
        · exact Except.noConfusion hq
        · split at hq
          · exact Except.noConfusion hq
          · rename_i tt htt
            rw [hdg, hbad] at htt
            exact Except.noConfusion htt

/-- If some element of the list maps to `none`, `filterMap` strictly
shrinks the list. -/
theorem length_filterMap_lt_of_none {α β : Type} (f : α → Option β)
    (l : List α) (a : α) (ha : a ∈ l) (hf : f a = none) :
    (l.filterMap f).length < l.length := by
  induction l with
  | nil => cases ha
  | cons b bs ih =>
    cases ha with
    | head =>
      rw [List.filterMap_cons_none hf]
      exact Nat.lt_succ_of_le (List.length_filterMap_le f bs)
    | tail _ hmem =>
      cases hfb : f b with
      | none =>
        rw [List.filterMap_cons_none hfb]
        exact Nat.lt_succ_of_lt (ih hmem)
      | some x =>
        rw [List.filterMap_cons_some hfb]
        simpa using Nat.succ_lt_succ (ih hmem)

/-! ### The claims -/

/-- Claim C1: the claim states `maybe_reload` never lets an exception
escape.  The code does let one escape: when the YAML document's top level
is a truthy non-mapping (here the list `[1]`), `data.get("default_ttl", 300)`
raises `AttributeError`, which is not in `maybe_reload`'s
`except (ValueError, yaml.YAMLError, OSError)` clause, so it propagates to
the caller (the previous state is kept, but the call raises). -/
theorem c1_maybe_reload_raises :
    maybe_reload ⟨0, 300, [], []⟩ (.present 5 (.doc (.list [.int 1]))) =
      (⟨0, 300, [], []⟩, some .attributeError) := by decide

/-- Claim C2: a raw records list whose entry at 0-based offset `i` is
invalid in one of the spec's categories (non-mapping, missing
`name`/`type`/`value`, name without trailing dot, unsupported type), with
all earlier entries parseable, makes the record loop fail with a
`ValueError` citing ordinal `i + 1`; and no failing `load` ever touches
the published `records` or `index`. -/
theorem c2_parse_rejects_invalid (dttl : Int) (raw : List YVal) (i : Nat)
    (h : i < raw.length) (hbad : c2Valid (raw.get ⟨i, h⟩) = false)
    (hpre : ∀ j (hj : j < i), ∃ rec,
      parseRecord dttl (1 + j) (raw.get ⟨j, Nat.lt_trans hj h⟩) = .ok rec) :
    (∃ e, parseRecords dttl 1 raw = .error e ∧ citesPos e (i + 1)) ∧
      (∀ st src force st2 e2, load st src force = (st2, some e2) →
        st2.records = st.records ∧ st2.index = st.index) := by
  constructor
  · rw [Nat.add_comm i 1]
    apply parseRecords_error_at dttl raw 1 i h
    · intro rec hc
      have hv := c2Valid_of_parseRecord_ok _ _ _ _ hc
      rw [hbad] at hv
      exact Bool.noConfusion hv
    · exact hpre
  · intro st src force st2 e2 hld
    obtain ⟨h1, h2, _⟩ := load_error_preserves st src force st2 e2 hld
    exact ⟨h1, h2⟩

theorem c2_witness :
    (∃ e, parseRecords 300 1
        [.map [("name", .str "bad"), ("type", .str "A"), ("value", .str "x")]]
        = .error e ∧ citesPos e (0 + 1)) ∧
      (∀ st src force st2 e2, load st src force = (st2, some e2) →
        st2.records = st.records ∧ st2.index = st.index) :=
  c2_parse_rejects_invalid 300
    [.map [("name", .str "bad"), ("type", .str "A"), ("value", .str "x")]] 0
    (by decide) (by decide) (fun j hj => absurd hj (Nat.not_lt_zero j))

/-- Claim C3 counterexample: the claim says a failed load/reload leaves
`default_ttl` unchanged along with the snapshot.  On this input the load
fails (`records` is not a list) yet `default_ttl` has already been
replaced by 600 — the code assigns `self.default_ttl` before validating
the records, so a failed reload can tear it from the snapshot. -/
theorem c3_default_ttl_torn :
    load ⟨0, 300, [], []⟩
      (.present 5 (.doc (.map [("default_ttl", .int 600), ("records", .int 7)])))
      false
      = (⟨0, 600, [], []⟩, some (.valueError "records must be a list")) ∧
      (600 : Int) ≠ 300 :=
  ⟨by decide, by decide⟩

/-- Claim C3 (amended): after any failed load/reload attempt the published
`records`, `index` and stored modification timestamp are unchanged;
`default_ttl`, however, may already have been replaced, because it is
assigned before the records list is validated. -/
theorem c3_amended_core_preserved (st : ConfigState) (src : Source)
    (force : Bool) (st2 : ConfigState) (e : Exc)
    (h : load st src force = (st2, some e)) :
    st2.records = st.records ∧ st2.index = st.index ∧ st2.mtime = st.mtime :=
  load_error_preserves st src force st2 e h

theorem c3_amended_witness :
    (⟨0, 600, [], []⟩ : ConfigState).records = (⟨0, 300, [], []⟩ : ConfigState).records ∧
      (⟨0, 600, [], []⟩ : ConfigState).index = (⟨0, 300, [], []⟩ : ConfigState).index ∧
      (⟨0, 600, [], []⟩ : ConfigState).mtime = (⟨0, 300, [], []⟩ : ConfigState).mtime :=
  c3_amended_core_preserved ⟨0, 300, [], []⟩
    (.present 9 (.doc (.map [("default_ttl", .int 600), ("records", .str "x")])))
    false ⟨0, 600, [], []⟩ (.valueError "records must be a list") (by decide)

/-- Claim C4 counterexample: the claim says a record whose `ttl` is a
negative integer is rejected with a `ConfigError`.  The code only passes
the value through `int()`, which accepts `-5`: the load succeeds and the
record with `ttl = -5` is published in the snapshot. -/
theorem c4_negative_ttl_accepted :
    load ⟨0, 300, [], []⟩
      (.present 5 (.doc (.map [("records", .list
        [.map [("name", .str "a."), ("type", .str "A"), ("value", .str "1.2.3.4"),
          ("ttl", .int (-5))]])])))
      true
      = (⟨5, 300, [⟨"a.", "A", "1.2.3.4", -5⟩],
          [(("a.", "A"), [⟨"a.", "A", "1.2.3.4", -5⟩])]⟩, none) ∧
      (-5 : Int) < 0 :=
  ⟨by decide, by decide⟩

/-- Claim C4 (amended): an entry whose `ttl` field is present but cannot
be converted by `int()` (a non-numeric string, `None`, a list or a
mapping) makes the record loop fail with a `ValueError` citing that
entry's 1-based ordinal position; a negative integer, however, converts
and is accepted. -/
theorem c4_amended_unconvertible_ttl (dttl : Int) (raw : List YVal) (i : Nat)
    (h : i < raw.length) (kvs : List (String × YVal))
    (hmap : raw.get ⟨i, h⟩ = .map kvs)
    (tkv : String × YVal) (httl : kvs.find? (fun p => p.1 == "ttl") = some tkv)
    (e0 : Exc) (hbad : pyInt tkv.2 = .error e0)
    (hpre : ∀ j (hj : j < i), ∃ rec,
      parseRecord dttl (1 + j) (raw.get ⟨j, Nat.lt_trans hj h⟩) = .ok rec) :
    ∃ e, parseRecords dttl 1 raw = .error e ∧ citesPos e (i + 1) := by
  rw [Nat.add_comm i 1]
  apply parseRecords_error_at dttl raw 1 i h
  · rw [hmap]
    exact parseRecord_not_ok_of_bad_ttl dttl (1 + i) kvs tkv httl e0 hbad
  · exact hpre

theorem c4_amended_witness :
    ∃ e, parseRecords 300 1
      [.map [("name", .str "a."), ("type", .str "A"), ("value", .str "1.2.3.4"),
        ("ttl", .str "soon")]] = .error e ∧ citesPos e (0 + 1) :=
  c4_amended_unconvertible_ttl 300
    [.map [("name", .str "a."), ("type", .str "A"), ("value", .str "1.2.3.4"),
      ("ttl", .str "soon")]] 0 (by decide) _ rfl ("ttl", .str "soon") rfl
    (.valueError ("invalid literal for int: soon")) rfl
    (fun j hj => absurd hj (Nat.not_lt_zero j))

/-- Claim C9: a non-forced reload against a present source whose
modification timestamp is at most the stored one returns without touching
any state component and without even examining the source's content (the
read outcome `r` is universally quantified), and `maybe_reload` behaves
identically; a rebuild can only be attempted when the timestamp is
strictly newer or the reload is forced. -/
theorem c9_reload_unchanged_source (st : ConfigState) (m : Int)
    (r : ReadResult) (h : m ≤ st.mtime) :
    load st (.present m r) false = (st, none) ∧
      maybe_reload st (.present m r) = (st, none) := by
  have hl : load st (.present m r) false = (st, none) := by
    simp [load, h]
  exact ⟨hl, by simp only [maybe_reload, hl]⟩

theorem c9_witness :
    load ⟨10, 300, [], []⟩ (.present 7 .yamlError) false = (⟨10, 300, [], []⟩, none) ∧
      maybe_reload ⟨10, 300, [], []⟩ (.present 7 .yamlError) = (⟨10, 300, [], []⟩, none) :=
  c9_reload_unchanged_source ⟨10, 300, [], []⟩ 7 .yamlError (by decide)

/-- Claim C5: for a well-formed snapshot and a supported non-ANY query
with a nonempty set of valid matching records, `lookup` answers exactly
the valid records of the `(lowercased qname, qtype)` bucket, in original
file order, with no additionals. -/
theorem c5_direct_lookup_exact (cfg : ConfigState) (q : String) (qt : Int)
    (hwf : cfg.index = buildIndex cfg.records) (h255 : qt ≠ 255)
    (hsup : supportedName (qtypeGet qt) = true)
    (hne : (cfg.records.filter (fun r => indexKey r == (lowerStr q, qtypeGet qt))).filterMap
      (buildRR (qtypeGet qt)) ≠ []) :
    lookup cfg q qt =
      ((cfg.records.filter (fun r => indexKey r == (lowerStr q, qtypeGet qt))).filterMap
        (buildRR (qtypeGet qt)), []) := by
  have hb : (qt == 255) = false := by simpa using h255
  have ht := toRRs_eq_filterMap cfg (lowerStr q) (qtypeGet qt) hwf
  have hie : ((cfg.records.filter (fun r => indexKey r == (lowerStr q, qtypeGet qt))).filterMap
      (buildRR (qtypeGet qt))).isEmpty = false := by
    cases hL : (cfg.records.filter (fun r => indexKey r == (lowerStr q, qtypeGet qt))).filterMap
        (buildRR (qtypeGet qt)) with
    | nil => exact absurd hL hne
    | cons a l => rfl
  simp [lookup, hb, hsup, ht, hie]

/-- Records of the C5 witness snapshot. -/
def exRecsC5 : List Record := [⟨"A.", "A", "1.2.3.4", 60⟩]

/-- The C5 witness snapshot (mixed-case name, queried in lowercase). -/
def exCfgC5 : ConfigState := ⟨5, 300, exRecsC5, buildIndex exRecsC5⟩

theorem c5_witness :
    lookup exCfgC5 "a." 1 =
      ((exRecsC5.filter (fun r => indexKey r == (lowerStr "a.", qtypeGet 1))).filterMap
        (buildRR (qtypeGet 1)), []) :=
  c5_direct_lookup_exact exCfgC5 "a." 1 rfl (by decide) (by decide) (by decide)

/-- Claim C6 counterexample: the claim says the CNAME fallback answer is a
single-entry list.  With two CNAME records configured for the same name,
the code extends the answers with the whole bucket: both are returned. -/
def exRecsC6 : List Record :=
  [⟨"x.", "CNAME", "a.", 60⟩, ⟨"x.", "CNAME", "b.", 60⟩]

/-- Snapshot with two CNAME records for one name. -/
def exCfgC6 : ConfigState := ⟨5, 300, exRecsC6, buildIndex exRecsC6⟩

theorem c6_two_cnames_counterexample :
    lookup exCfgC6 "x." 1 = ([⟨"x.", 5, "a.", 60⟩, ⟨"x.", 5, "b.", 60⟩], []) ∧
      (lookup exCfgC6 "x." 1).1.length ≠ 1 :=
  ⟨by decide, by decide⟩

/-- Claim C6 (amended): for a non-ANY typed query whose direct lookup
built no answers, `lookup` returns all valid CNAME records of the
lowercased qname as the answers (single-entry when exactly one valid CNAME
exists), with additionals the A records then the AAAA records of the
first returned CNAME's lowercased target; when no valid CNAME exists
either, it returns empty answers and empty additionals. -/
theorem c6_amended_cname_fallback (cfg : ConfigState) (q : String) (qt : Int)
    (hwf : cfg.index = buildIndex cfg.records) (h255 : qt ≠ 255)
    (hdir : (if supportedName (qtypeGet qt) = true then
        toRRs cfg (lowerStr q) (qtypeGet qt) else []) = []) :
    lookup cfg q qt =
      (match (cfg.records.filter (fun r => indexKey r == (lowerStr q, "CNAME"))).filterMap
          (buildRR "CNAME") with
       | [] => ([], [])
       | c :: cs =>
         (c :: cs,
           (cfg.records.filter (fun r => indexKey r == (lowerStr c.rdata, "A"))).filterMap
             (buildRR "A") ++
           (cfg.records.filter (fun r => indexKey r == (lowerStr c.rdata, "AAAA"))).filterMap
             (buildRR "AAAA"))) := by
  have hb : (qt == 255) = false := by simpa using h255
  have htc := toRRs_eq_filterMap cfg (lowerStr q) "CNAME" hwf
  cases hcn : (cfg.records.filter (fun r => indexKey r == (lowerStr q, "CNAME"))).filterMap
      (buildRR "CNAME") with
  | nil =>
    have htcn : toRRs cfg (lowerStr q) "CNAME" = [] := htc.trans hcn
    simp [lookup, hb, hdir, htcn]
  | cons c cs =>
    have htcn : toRRs cfg (lowerStr q) "CNAME" = c :: cs := htc.trans hcn
    simp [lookup, hb, hdir, htcn,
      toRRs_eq_filterMap cfg (lowerStr c.rdata) "A" hwf,
      toRRs_eq_filterMap cfg (lowerStr c.rdata) "AAAA" hwf]

/-- Records of the C6 witness snapshot: the spec's CNAME-chase scenario. -/
def exRecsC6w : List Record :=
  [⟨"alias.", "CNAME", "target.", 60⟩, ⟨"target.", "A", "1.2.3.4", 60⟩]

/-- The C6 witness snapshot. -/
def exCfgC6w : ConfigState := ⟨5, 300, exRecsC6w, buildIndex exRecsC6w⟩

theorem c6_amended_witness :
    lookup exCfgC6w "alias." 1 =
      ([⟨"alias.", 5, "target.", 60⟩], [⟨"target.", 1, "1.2.3.4", 60⟩]) := by
  rw [c6_amended_cname_fallback exCfgC6w "alias." 1 rfl (by decide) (by decide)]
  decide

/-- Claim C7: ANY queries answer by expanding the fixed canonical type
order A, AAAA, CNAME, TXT, NS, PTR, keeping original file order within
each type bucket; if any CNAME is among the collected answers, the
additionals are the A then AAAA records of the first CNAME's lowercased
target.  (`lookup` is a pure function of the snapshot and query, so
resolving the same snapshot and query twice yields identical ordering by
construction.) -/
theorem c7_any_canonical_order (cfg : ConfigState) (q : String)
    (hwf : cfg.index = buildIndex cfg.records) :
    lookup cfg q 255 =
      (SUPPORTED_ORDER.flatMap (fun t =>
          (cfg.records.filter (fun r => indexKey r == (lowerStr q, t))).filterMap (buildRR t)),
        match ((SUPPORTED_ORDER.flatMap (fun t =>
            (cfg.records.filter (fun r => indexKey r == (lowerStr q, t))).filterMap
              (buildRR t))).filter (fun rr => rr.rtype == 5)).map (fun rr => rr.rdata) with
        | [] => []
        | t :: _ =>
          (cfg.records.filter (fun r => indexKey r == (lowerStr t, "A"))).filterMap
            (buildRR "A") ++
          (cfg.records.filter (fun r => indexKey r == (lowerStr t, "AAAA"))).filterMap
            (buildRR "AAAA")) := by
  have hfun : (fun t => toRRs cfg (lowerStr q) t) = (fun t =>
      (cfg.records.filter (fun r => indexKey r == (lowerStr q, t))).filterMap (buildRR t)) :=
    funext (fun t => toRRs_eq_filterMap cfg (lowerStr q) t hwf)
  cases hts : ((SUPPORTED_ORDER.flatMap (fun t =>
      (cfg.records.filter (fun r => indexKey r == (lowerStr q, t))).filterMap
        (buildRR t))).filter (fun rr => rr.rtype == 5)).map (fun rr => rr.rdata) with
  | nil => simp [lookup, hfun, hts]
  | cons t ts =>
    simp [lookup, hfun, hts, toRRs_eq_filterMap cfg (lowerStr t) "A" hwf,
      toRRs_eq_filterMap cfg (lowerStr t) "AAAA" hwf]

/-- Records of the C7 witness snapshot: TXT listed before A in the file. -/
def exRecsC7 : List Record :=
  [⟨"m.", "TXT", "hi", 60⟩, ⟨"m.", "A", "1.2.3.4", 60⟩]

/-- The C7 witness snapshot. -/
def exCfgC7 : ConfigState := ⟨5, 300, exRecsC7, buildIndex exRecsC7⟩

theorem c7_witness :
    lookup exCfgC7 "m." 255 =
      ([⟨"m.", 1, "1.2.3.4", 60⟩, ⟨"m.", 16, "hi", 60⟩], []) := by
  rw [c7_any_canonical_order exCfgC7 "m." rfl]
  decide

/-- Claim C8: in a bucket mixing records whose values fail construction
validation with records whose values pass, resolution never raises (the
builders are total, returning `none` for a failing record, mirroring the
source's per-record `try`/`except`): the result is exactly the valid
records of the bucket in order, each failing record is skipped (the
result is strictly shorter than the bucket), and every valid record's
resource record is present. -/
theorem c8_invalid_values_skipped (cfg : ConfigState) (nl t : String)
    (hwf : cfg.index = buildIndex cfg.records)
    (rb : Record) (hbmem : rb ∈ cfg.records.filter (fun r => indexKey r == (nl, t)))
    (hbnone : buildRR t rb = none)
    (rg : Record) (hgmem : rg ∈ cfg.records.filter (fun r => indexKey r == (nl, t)))
    (rrg : RR) (hgsome : buildRR t rg = some rrg) :
    toRRs cfg nl t =
        (cfg.records.filter (fun r => indexKey r == (nl, t))).filterMap (buildRR t) ∧
      rrg ∈ toRRs cfg nl t ∧
      (toRRs cfg nl t).length < (cfg.records.filter (fun r => indexKey r == (nl, t))).length := by
  have ht := toRRs_eq_filterMap cfg nl t hwf
  refine ⟨ht, ?_, ?_⟩
  · rw [ht]
    exact List.mem_filterMap.mpr ⟨rg, hgmem, hgsome⟩
  · rw [ht]
    exact length_filterMap_lt_of_none _ _ rb hbmem hbnone

/-- Records of the C8 witness snapshot: the spec's fallback-on-error
scenario (one malformed A value, one valid A value, same name). -/
def exRecsC8 : List Record :=
  [⟨"bad.", "A", "not-an-ip", 60⟩, ⟨"bad.", "A", "5.6.7.8", 60⟩]

/-- The C8 witness snapshot. -/
def exCfgC8 : ConfigState := ⟨5, 300, exRecsC8, buildIndex exRecsC8⟩

theorem c8_witness :
    toRRs exCfgC8 "bad." "A" =
        (exRecsC8.filter (fun r => indexKey r == ("bad.", "A"))).filterMap (buildRR "A") ∧
      (⟨"bad.", 1, "5.6.7.8", 60⟩ : RR) ∈ toRRs exCfgC8 "bad." "A" ∧
      (toRRs exCfgC8 "bad." "A").length <
        (exRecsC8.filter (fun r => indexKey r == ("bad.", "A"))).length :=
  c8_invalid_values_skipped exCfgC8 "bad." "A" rfl
    ⟨"bad.", "A", "not-an-ip", 60⟩ (by decide) (by decide)
    ⟨"bad.", "A", "5.6.7.8", 60⟩ (by decide) ⟨"bad.", 1, "5.6.7.8", 60⟩ (by decide)

/-- Claim C10: for a non-ANY supported query whose direct bucket is
non-empty but builds no valid answers (every record's value fails
validation), `lookup` still falls through to the CNAME fallback — the
fallback triggers on the built answers being empty, not on the bucket
being absent — returning the valid CNAME records with the first target's
A then AAAA records as additionals. -/
theorem c10_fallback_on_all_invalid (cfg : ConfigState) (q : String) (qt : Int)
    (hwf : cfg.index = buildIndex cfg.records) (h255 : qt ≠ 255)
    (hsup : supportedName (qtypeGet qt) = true)
    (hne : cfg.records.filter (fun r => indexKey r == (lowerStr q, qtypeGet qt)) ≠ [])
    (hallbad : ∀ r ∈ cfg.records.filter (fun r => indexKey r == (lowerStr q, qtypeGet qt)),
      buildRR (qtypeGet qt) r = none)
    (c : RR) (cs : List RR)
    (hcn : (cfg.records.filter (fun r => indexKey r == (lowerStr q, "CNAME"))).filterMap
      (buildRR "CNAME") = c :: cs) :
    lookup cfg q qt = (c :: cs,
      (cfg.records.filter (fun r => indexKey r == (lowerStr c.rdata, "A"))).filterMap
        (buildRR "A") ++
      (cfg.records.filter (fun r => indexKey r == (lowerStr c.rdata, "AAAA"))).filterMap
        (buildRR "AAAA")) := by
  have hb : (qt == 255) = false := by simpa using h255
  have hdirect : toRRs cfg (lowerStr q) (qtypeGet qt) = [] := by
    rw [toRRs_eq_filterMap cfg _ _ hwf]
    exact List.filterMap_eq_nil_iff.mpr hallbad
  have htcc : toRRs cfg (lowerStr q) "CNAME" = c :: cs :=
    (toRRs_eq_filterMap cfg (lowerStr q) "CNAME" hwf).trans hcn
  simp [lookup, hb, hsup, hdirect, htcc,
    toRRs_eq_filterMap cfg (lowerStr c.rdata) "A" hwf,
    toRRs_eq_filterMap cfg (lowerStr c.rdata) "AAAA" hwf]

/-- Records of the C10 witness snapshot: the direct A bucket for `x.` is
non-empty but its only value is invalid; a CNAME and its target exist. -/
def exRecsC10 : List Record :=
  [⟨"x.", "A", "bad", 60⟩, ⟨"x.", "CNAME", "t.", 60⟩, ⟨"t.", "A", "9.9.9.9", 60⟩]

/-- The C10 witness snapshot. -/
def exCfgC10 : ConfigState := ⟨5, 300, exRecsC10, buildIndex exRecsC10⟩

theorem c10_witness :
    lookup exCfgC10 "x." 1 = ([⟨"x.", 5, "t.", 60⟩],
      (exRecsC10.filter (fun r => indexKey r == (lowerStr (RR.rdata ⟨"x.", 5, "t.", 60⟩), "A"))).filterMap
        (buildRR "A") ++
      (exRecsC10.filter (fun r => indexKey r == (lowerStr (RR.rdata ⟨"x.", 5, "t.", 60⟩), "AAAA"))).filterMap
        (buildRR "AAAA")) :=
  c10_fallback_on_all_invalid exCfgC10 "x." 1 rfl (by decide) (by decide)
    (by decide) (by decide) ⟨"x.", 5, "t.", 60⟩ [] (by decide)

end DnsServer
